import Mathlib

/-!
Shallow embedding of the HSBC HK credit-card statement reconstruction engine
(`hsbc_hk_statement_parser.py`).  Text is modelled as `List Char` (ASCII scope);
exact 2-decimal `Decimal` amounts are modelled as integer cents (`Nat` for
magnitudes, `Int` for signed values); unquantized `Decimal` exchange rates are
modelled exactly as a mantissa with a power-of-ten scale (Python `Decimal`
equality is value equality, modelled by cross-multiplication); a raised
`ParseError` is modelled as `none` / `Option` failure.
-/

/-! ## Character helpers -/

def isDigitC (c : Char) : Bool := 48 ≤ c.toNat && c.toNat ≤ 57

def isUpperC (c : Char) : Bool := 65 ≤ c.toNat && c.toNat ≤ 90

def isLowerC (c : Char) : Bool := 97 ≤ c.toNat && c.toNat ≤ 122

def isAlphaC (c : Char) : Bool := isUpperC c || isLowerC c

/-- Python `\s` (ASCII scope): space, tab, newline, carriage return, vertical tab, form feed. -/
def pyWs (c : Char) : Bool :=
  c.toNat = 32 || c.toNat = 9 || c.toNat = 10 || c.toNat = 13 || c.toNat = 11 || c.toNat = 12

/-- Python `\w` (ASCII scope): alphanumeric or underscore. -/
def isWordC (c : Char) : Bool := isDigitC c || isUpperC c || isLowerC c || c = '_'

/-- ASCII upper-casing, as `str.upper` on ASCII text. -/
def toUpperC (c : Char) : Char :=
  if 97 ≤ c.toNat && c.toNat ≤ 122 then Char.ofNat (c.toNat - 32) else c

def toUpperL (cs : List Char) : List Char := cs.map toUpperC

def dval (c : Char) : Nat := c.toNat - 48

def dChar (n : Nat) : Char := Char.ofNat (48 + n)

/-! ## `squeeze_ws`: `re.sub(r"\s+", " ", value).strip()` -/

/-- Collapse whitespace runs to single spaces; `prevWs` records whether the
previously emitted character came from a whitespace run. -/
def collapseWs : List Char → Bool → List Char
  | [], _ => []
  | c :: rest, prevWs =>
    if pyWs c then
      if prevWs then collapseWs rest true else ' ' :: collapseWs rest true
    else
      c :: collapseWs rest false

def trimSpaces (cs : List Char) : List Char :=
  ((cs.dropWhile (fun c => c = ' ')).reverse.dropWhile (fun c => c = ' ')).reverse

def squeeze_ws (cs : List Char) : List Char := trimSpaces (collapseWs cs false)

/-! ## Splitting -/

/-- Python `str.split(" ")`: split at every single space; `"".split(" ") = [""]`. -/
def pySplitSpace : List Char → List (List Char)
  | [] => [[]]
  | c :: rest =>
    if c = ' ' then [] :: pySplitSpace rest
    else
      match pySplitSpace rest with
      | [] => [[c]]
      | t :: ts => (c :: t) :: ts

/-- `[w for w in s.split(" ") if w]` -/
def wordsOf (cs : List Char) : List (List Char) :=
  (pySplitSpace cs).filter (fun w => ¬ w = [])

/-! ## Literal matching -/

/-- Consume an exact literal from the front; `some rest` on success. -/
def matchLit : List Char → List Char → Option (List Char)
  | [], cs => some cs
  | _ :: _, [] => none
  | l :: ls, c :: cs => if c = l then matchLit ls cs else none

/-- Case-insensitive literal consumption (literal given in upper case). -/
def matchLitCI : List Char → List Char → Option (List Char)
  | [], cs => some cs
  | _ :: _, [] => none
  | l :: ls, c :: cs => if toUpperC c = l then matchLitCI ls cs else none

def startsWithSeq (pat cs : List Char) : Bool := (matchLit pat cs).isSome

/-- Substring containment (Python `in` on strings). -/
def containsSeq (pat : List Char) : List Char → Bool
  | [] => pat.isEmpty
  | c :: rest => (matchLit pat (c :: rest)).isSome || containsSeq pat rest

/-- `\s+`: one or more whitespace characters, maximal run. -/
def wsRun1 (cs : List Char) : Option (List Char) :=
  match cs with
  | [] => none
  | c :: _ => if pyWs c then some (cs.dropWhile pyWs) else none

/-- `\s*`: maximal whitespace run (valid where the following pattern element
cannot match whitespace, which holds at every use site in the source regexes). -/
def wsRun0 (cs : List Char) : List Char := cs.dropWhile pyWs

/-! ## Digit strings and money (`parse_money`, `money_to_json`) -/

def digitsVal (cs : List Char) : Nat := cs.foldl (fun a c => a * 10 + dval c) 0

/-- Decimal digit string of a natural number, fuel-structured so that it
reduces definitionally (`fuel` bounds the digit count). -/
def natDigitsAux : Nat → Nat → List Char
  | 0, _ => []
  | fuel + 1, n =>
    if n < 10 then [dChar n] else natDigitsAux fuel (n / 10) ++ [dChar (n % 10)]

/-- Decimal digit string of a natural number (standard rendering, `"0"` for 0). -/
def natDigits (n : Nat) : List Char := natDigitsAux (n + 1) n

/-- `re.fullmatch(r"\d+\.\d{2}", token)`, returning the value in cents. -/
def moneyCore (cs : List Char) : Option Nat :=
  let ip := cs.takeWhile isDigitC
  let rest := cs.dropWhile isDigitC
  if ip = [] then none
  else
    match rest with
    | p :: a :: b :: [] =>
      if p = '.' && isDigitC a && isDigitC b then
        some (digitsVal ip * 100 + dval a * 10 + dval b)
      else none
    | _ => none

/-- `token.endswith("CR")` and, when so, `token[:-2]`. -/
def stripCR (cs : List Char) : List Char × Bool :=
  match cs.reverse with
  | r :: c :: rest => if r = 'R' ∧ c = 'C' then (rest.reverse, true) else (cs, false)
  | _ => (cs, false)

/-- `parse_money`: remove spaces, strip an optional `CR` suffix, remove commas,
require `\d+\.\d{2}`, quantize (identity on a 2-decimal token).  Returns
(magnitude cents, signed cents, is-credit); `none` models `ParseError`. -/
def parse_money (raw : List Char) : Option (Nat × Int × Bool) :=
  let t1 := raw.filter (fun c => ¬ c = ' ')
  let p := stripCR t1
  let tok := p.1.filter (fun c => ¬ c = ',')
  match moneyCore tok with
  | none => none
  | some v => some (v, if p.2 then -(v : Int) else (v : Int), p.2)

/-- `parse_plain_amount`: remove commas, require `\d+\.\d{2}`. -/
def parse_plain_amount (raw : List Char) : Option Nat :=
  moneyCore (raw.filter (fun c => ¬ c = ','))

/-- `money_to_json`: fixed-point rendering with exactly two fractional digits. -/
def money_to_json (v : Nat) : List Char :=
  natDigits (v / 100) ++ '.' :: dChar (v % 100 / 10) :: dChar (v % 100 % 10) :: []

/-! ## Calendar dates (`datetime.date`, `parse_ddmon`, MONTHS) -/

structure PDate where
  year : Int
  month : Nat
  day : Nat
deriving DecidableEq, Repr

def isLeap (y : Int) : Bool := (y % 4 = 0 && ¬ y % 100 = 0) || y % 400 = 0

def daysInMonth (y : Int) (m : Nat) : Nat :=
  if m = 1 then 31
  else if m = 2 then (if isLeap y then 29 else 28)
  else if m = 3 then 31
  else if m = 4 then 30
  else if m = 5 then 31
  else if m = 6 then 30
  else if m = 7 then 31
  else if m = 8 then 31
  else if m = 9 then 30
  else if m = 10 then 31
  else if m = 11 then 30
  else if m = 12 then 31
  else 0

/-- Validity domain of Python `datetime.date(y, m, d)` (MINYEAR = 1, MAXYEAR = 9999). -/
def isValidDate (y : Int) (m d : Nat) : Bool :=
  1 ≤ y && y ≤ 9999 && 1 ≤ m && m ≤ 12 && 1 ≤ d && d ≤ daysInMonth y m

def monthsTable : List (List Char × Nat) :=
  [(['J','A','N'], 1), (['F','E','B'], 2), (['M','A','R'], 3), (['A','P','R'], 4),
   (['M','A','Y'], 5), (['J','U','N'], 6), (['J','U','L'], 7), (['A','U','G'], 8),
   (['S','E','P'], 9), (['O','C','T'], 10), (['N','O','V'], 11), (['D','E','C'], 12)]

def monthNum (cs : List Char) : Option Nat := monthsTable.lookup cs

/-- `parse_ddmon`: `DDMON` token, month via the fixed table, year = statement year
minus one when the token month exceeds the statement month, else statement year;
`none` models both `ParseError` and an invalid `datetime.date`. -/
def parse_ddmon (tok : List Char) (statement_year : Int) (statement_month : Nat) :
    Option PDate :=
  match tok with
  | [a, b, c, d, e] =>
    if isDigitC a && isDigitC b && isUpperC c && isUpperC d && isUpperC e then
      match monthNum [c, d, e] with
      | none => none
      | some m =>
        let day := dval a * 10 + dval b
        let y := if m > statement_month then statement_year - 1 else statement_year
        if isValidDate y m day then some ⟨y, m, day⟩ else none
    else none
  | _ => none

/-- Four consecutive digit characters. -/
def take4digits (cs : List Char) : Option (List Char × List Char) :=
  match cs with
  | a :: b :: c :: d :: rest =>
    if isDigitC a && isDigitC b && isDigitC c && isDigitC d then some ([a, b, c, d], rest)
    else none
  | _ => none

/-- An exact non-negative decimal value `mantissa / 10 ^ scale` (the model of an
unquantized Python `Decimal` such as an exchange rate). -/
structure DecVal where
  mantissa : Nat
  scale : Nat
deriving DecidableEq, Repr

/-- Python `Decimal` equality is value equality. -/
def decEqVal (a b : DecVal) : Bool :=
  a.mantissa * 10 ^ b.scale = b.mantissa * 10 ^ a.scale

/-- Value of a decimal literal `intPart.fracPart` (e.g. the exchange-rate capture). -/
def decValue (intPart fracPart : List Char) : DecVal :=
  ⟨digitsVal intPart * 10 ^ fracPart.length + digitsVal fracPart, fracPart.length⟩

/-- `(currency_amount * exchange_rate).quantize(Decimal("0.01"), ROUND_HALF_UP)`
in cents, for a currency amount `ca` given in cents: the exact product value is
`ca * mantissa / (100 * 10 ^ scale)` currency units, i.e. `ca * mantissa / 10 ^ scale`
cents, and rounding half-up (ties away from zero; both operands are non-negative)
gives `floor (x + 1/2) = (2 * a + b) / (2 * b)` under `Nat` floor division. -/
def convertedCents (ca : Nat) (r : DecVal) : Nat :=
  (2 * (ca * r.mantissa) + 10 ^ r.scale) / (2 * 10 ^ r.scale)

/-! ## Data model -/

structure Transaction where
  post_date : PDate
  transaction_date : PDate
  description : List Char
  amount : Nat
  signed_amount : Int
  is_credit : Bool
  kind : List Char
  card_number : List Char
  cardholder_name : List Char
  payment_method : Option (List Char)
  region_code_alpha2 : Option (List Char)
  currency : Option (List Char)
  currency_amount : Option Nat
  exchange_rate : Option DecVal
  notes : List (List Char)
deriving DecidableEq, Repr

structure SubAccount where
  account_number : List Char
  sub_account_currency : Option (List Char)
  amount_currency : Option (List Char)
  statement_balance_header : Option Nat
  previous_balance : Option Nat
  statement_balance_summary : Option Nat
  summary_credit_payment : Option Nat
  summary_purchases_and_instalments : Option Nat
  summary_total_account_balance : Option Nat
  cards : List (List Char × List Char)
  transactions : List Transaction
deriving DecidableEq, Repr

/-- Reconstruction state: the account under construction plus the FSM locals
`current_card_number` and whether `last_tx` is set (the attachable transaction
being the last element of `transactions`). -/
structure ParseCtx where
  acct : SubAccount
  currentCard : Option (List Char)
  lastTxActive : Bool
deriving DecidableEq, Repr

def litCNY : List Char := ['C','N','Y']
def litRMB : List Char := ['R','M','B']

/-- `canonical_base_currency`: CNY and RMB collapse to CNY, otherwise upper-case. -/
def canonical_base_currency (amount_currency : List Char) : List Char :=
  if toUpperL amount_currency = litCNY ∨ toUpperL amount_currency = litRMB then litCNY
  else toUpperL amount_currency

/-! ## Line-pattern matchers (compiled regexes of the source) -/

def litPrevBal : List Char :=
  ['P','R','E','V','I','O','U','S',' ','B','A','L','A','N','C','E']
def litStmtBal : List Char :=
  ['S','T','A','T','E','M','E','N','T',' ','B','A','L','A','N','C','E']
def litCreditPayment : List Char :=
  ['C','R','E','D','I','T','/','P','A','Y','M','E','N','T']
def litPurchases : List Char :=
  ['P','U','R','C','H','A','S','E','S',' ','A','N','D',' ','I','N','S','T','A','L','M','E','N','T','S']
def litTotalBal : List Char :=
  ['T','O','T','A','L',' ','A','C','C','O','U','N','T',' ','B','A','L','A','N','C','E']

/-- `[0-9][0-9,]*\.\d{2}` anchored to the end of the string. -/
def isMoneyTok (cs : List Char) : Bool :=
  match cs with
  | [] => false
  | c :: rest =>
    isDigitC c &&
      match rest.dropWhile (fun x => isDigitC x || x = ',') with
      | '.' :: a :: b :: [] => isDigitC a && isDigitC b
      | _ => false

/-- `[0-9][0-9,]*\.\d{2}(?:CR)?` anchored to the end of the string. -/
def isMoneyTokCR (cs : List Char) : Bool :=
  match cs with
  | [] => false
  | c :: rest =>
    isDigitC c &&
      match rest.dropWhile (fun x => isDigitC x || x = ',') with
      | '.' :: a :: b :: [] => isDigitC a && isDigitC b
      | '.' :: a :: b :: 'C' :: 'R' :: [] => isDigitC a && isDigitC b
      | _ => false

/-- `PREVIOUS_BALANCE_RE`: `^PREVIOUS BALANCE\s+([0-9][0-9,]*\.\d{2})$`; returns the capture. -/
def matchPrevBalance (line : List Char) : Option (List Char) :=
  match matchLit litPrevBal line with
  | none => none
  | some rest =>
    match wsRun1 rest with
    | none => none
    | some tail => if isMoneyTok tail then some tail else none

/-- `STATEMENT_BALANCE_RE`: `^STATEMENT BALANCE\s+([0-9][0-9,]*\.\d{2})$`. -/
def matchStmtBalance (line : List Char) : Option (List Char) :=
  match matchLit litStmtBal line with
  | none => none
  | some rest =>
    match wsRun1 rest with
    | none => none
    | some tail => if isMoneyTok tail then some tail else none

/-- Shared tail `\s*:\s*` of the three summary regexes. -/
def matchColon (cs : List Char) : Option (List Char) :=
  match wsRun0 cs with
  | ':' :: r => some (wsRun0 r)
  | _ => none

/-- `SUMMARY_CREDIT_RE`: `^CREDIT/PAYMENT\s*:\s*([0-9][0-9,]*\.\d{2}(?:CR)?)$`. -/
def matchSummaryCredit (line : List Char) : Option (List Char) :=
  match matchLit litCreditPayment line with
  | none => none
  | some rest =>
    match matchColon rest with
    | none => none
    | some tail => if isMoneyTokCR tail then some tail else none

/-- `SUMMARY_PURCHASE_RE`: `^PURCHASES AND INSTALMENTS\s*:\s*([0-9][0-9,]*\.\d{2})$`. -/
def matchSummaryPurchase (line : List Char) : Option (List Char) :=
  match matchLit litPurchases line with
  | none => none
  | some rest =>
    match matchColon rest with
    | none => none
    | some tail => if isMoneyTok tail then some tail else none

/-- `SUMMARY_TOTAL_RE`: `^TOTAL ACCOUNT BALANCE\s*:\s*([0-9][0-9,]*\.\d{2})$`. -/
def matchSummaryTotal (line : List Char) : Option (List Char) :=
  match matchLit litTotalBal line with
  | none => none
  | some rest =>
    match matchColon rest with
    | none => none
    | some tail => if isMoneyTok tail then some tail else none

/-- Character class of the cardholder-name capture: letters, space, dot, comma,
apostrophe, parentheses, slash, hyphen. -/
def nameClassC (c : Char) : Bool :=
  isAlphaC c || c = ' ' || c = '.' || c = ',' || c = '\'' || c = '(' || c = ')' ||
    c = '/' || c = '-'

/-- `CARD_HOLDER_RE`: four groups of four digits separated by `\s+`, then `\s+`,
then a name capture (a letter followed by 1 to 48 name-class characters),
anchored at both ends; returns the 16 card digits (group 1 after
`to_card_number`'s non-digit strip) and the raw name capture. -/
def matchCardHolder (line : List Char) : Option (List Char × List Char) :=
  match take4digits line with
  | none => none
  | some (g1, r1) =>
    match wsRun1 r1 with
    | none => none
    | some r1b =>
      match take4digits r1b with
      | none => none
      | some (g2, r2) =>
        match wsRun1 r2 with
        | none => none
        | some r2b =>
          match take4digits r2b with
          | none => none
          | some (g3, r3) =>
            match wsRun1 r3 with
            | none => none
            | some r3b =>
              match take4digits r3b with
              | none => none
              | some (g4, r4) =>
                match wsRun1 r4 with
                | none => none
                | some name =>
                  match name with
                  | [] => none
                  | c :: restName =>
                    if isAlphaC c && 1 ≤ restName.length && restName.length ≤ 48 &&
                        restName.all nameClassC then
                      some (g1 ++ g2 ++ g3 ++ g4, name)
                    else none

def blockedWords : List (List Char) :=
  [['P','U','L','S','E'],
   ['D','U','A','L','C','U','R','R','E','N','C','Y'],
   ['C','A','R','D','T','Y','P','E'],
   ['S','T','A','T','E','M','E','N','T','D','A','T','E'],
   ['C','R','E','D','I','T','L','I','M','I','T'],
   ['A','C','C','O','U','N','T','N','U','M','B','E','R']]

/-- `is_probable_cardholder`. -/
def is_probable_cardholder (name : List Char) : Bool :=
  let candidate := toUpperL (squeeze_ws name)
  if candidate.any isDigitC then false
  else if blockedWords.any (fun w => containsSeq w candidate) then false
  else
    let ws := wordsOf candidate
    1 ≤ ws.length && ws.length ≤ 6

/-- `re.match(r"^\d{2}[A-Z]{3}\b", line)`: two digits, three upper-case letters,
then a word boundary. -/
def txPrefixShaped (line : List Char) : Bool :=
  match line with
  | a :: b :: c :: d :: e :: rest =>
    isDigitC a && isDigitC b && isUpperC c && isUpperC d && isUpperC e &&
      (match rest with
       | [] => true
       | x :: _ => ¬ isWordC x)
  | _ => false

/-- A `\d{2}[A-Z]{3}` token at the front. -/
def takeDdmon (cs : List Char) : Option (List Char × List Char) :=
  match cs with
  | a :: b :: c :: d :: e :: rest =>
    if isDigitC a && isDigitC b && isUpperC c && isUpperC d && isUpperC e then
      some ([a, b, c, d, e], rest)
    else none
  | _ => none

/-- Split at the last maximal whitespace run: `some (before, after)`. -/
def splitLastWs (cs : List Char) : Option (List Char × List Char) :=
  let r := cs.reverse
  let amtRev := r.takeWhile (fun c => ¬ pyWs c)
  let restRev := r.dropWhile (fun c => ¬ pyWs c)
  match restRev with
  | [] => none
  | _ => some (((restRev.dropWhile pyWs).reverse), amtRev.reverse)

/-- `TRANSACTION_RE`:
`^(\d{2}[A-Z]{3})\s+(\d{2}[A-Z]{3})\s+(.+?)\s+([0-9][0-9,]*\.\d{2}(?:CR)?)$`.
The lazy description together with the final anchor force the amount capture to
be the text after the last whitespace run.  Returns (post token, transaction
token, raw description, amount token). -/
def matchTransaction (line : List Char) :
    Option (List Char × List Char × List Char × List Char) :=
  match takeDdmon line with
  | none => none
  | some (t1, r1) =>
    match wsRun1 r1 with
    | none => none
    | some r1b =>
      match takeDdmon r1b with
      | none => none
      | some (t2, r2) =>
        match wsRun1 r2 with
        | none => none
        | some body =>
          match splitLastWs body with
          | none => none
          | some (desc, amt) =>
            if ¬ desc = [] && isMoneyTokCR amt then some (t1, t2, desc, amt) else none

/-- `ALPHA3_RE` full match. -/
def isAlpha3 (cs : List Char) : Bool :=
  match cs with
  | [a, b, c] => isUpperC a && isUpperC b && isUpperC c
  | _ => false

/-- `ALPHA2_RE` full match. -/
def isAlpha2 (cs : List Char) : Bool :=
  match cs with
  | [a, b] => isUpperC a && isUpperC b
  | _ => false

/-- Intercalate a single space (Python `" ".join`). -/
def joinSpace : List (List Char) → List Char
  | [] => []
  | [w] => w
  | w :: ws => w ++ ' ' :: joinSpace ws

/-- `split_description_details`: strip an optional trailing
`<ALPHA3> <PLAIN_AMOUNT>` pair, then an optional trailing `ALPHA2` region code;
the remaining description must be non-empty. -/
def split_description_details (description_raw : List Char) :
    Option (List Char × Option (List Char) × Option (List Char) × Option Nat) :=
  let tokens := pySplitSpace (squeeze_ws description_raw)
  match tokens with
  | [] => none
  | _ =>
    let step1 :
        Option (List (List Char) × Option (List Char) × Option Nat) :=
      match tokens.reverse with
      | amt :: cur :: restRev =>
        if ¬ restRev = [] && isAlpha3 cur && isMoneyTok amt then
          match parse_plain_amount amt with
          | none => none
          | some v => some (restRev.reverse, some cur, some v)
        else some (tokens, none, none)
      | _ => some (tokens, none, none)
    match step1 with
    | none => none
    | some (toks1, currency, currency_amount) =>
      let step2 : List (List Char) × Option (List Char) :=
        match toks1.reverse with
        | last :: restRev =>
          if ¬ restRev = [] && isAlpha2 last then (restRev.reverse, some last)
          else (toks1, none)
        | _ => (toks1, none)
      let description := squeeze_ws (joinSpace step2.1)
      if description = [] then none
      else some (description, step2.2, currency, currency_amount)

/-! ## Continuation-line matchers -/

def litApple1 : List Char := ['A','P','P','L','E']
def litApple2 : List Char := ['P','A','Y','-','M','O','B','I','L','E',':']
def litUnionpay : List Char := ['U','N','I','O','N','P','A','Y']
def litQr : List Char := ['Q','R']
def litExchange : List Char := ['E','X','C','H','A','N','G','E']
def litRateColon : List Char := ['R','A','T','E',':']

/-- `APPLE_PAY_RE`: `^APPLE\s*PAY-MOBILE:(\d{4})$`, case-insensitive. -/
def isApplePayLine (line : List Char) : Bool :=
  match matchLitCI litApple1 line with
  | none => false
  | some r1 =>
    match matchLitCI litApple2 (wsRun0 r1) with
    | none => false
    | some r2 =>
      match r2 with
      | [a, b, c, d] => isDigitC a && isDigitC b && isDigitC c && isDigitC d
      | _ => false

/-- `UNIONPAY_QR_RE`: `^UNIONPAY\s*QR$`, case-insensitive. -/
def isUnionpayQrLine (line : List Char) : Bool :=
  match matchLitCI litUnionpay line with
  | none => false
  | some r1 =>
    match matchLitCI litQr (wsRun0 r1) with
    | none => false
    | some r2 => r2.isEmpty

/-- `EXCHANGE_RATE_RE`: `^\*EXCHANGE\s*RATE:\s*([0-9]+(?:\.[0-9]+)?)$`,
case-insensitive; returns the captured decimal as its exact value. -/
def matchExchangeRate (line : List Char) : Option DecVal :=
  match line with
  | '*' :: r0 =>
    match matchLitCI litExchange r0 with
    | none => none
    | some r1 =>
      match matchLitCI litRateColon (wsRun0 r1) with
      | none => none
      | some r2 =>
        let v := wsRun0 r2
        let ip := v.takeWhile isDigitC
        let rest := v.dropWhile isDigitC
        if ip = [] then none
        else
          match rest with
          | [] => some (decValue ip [])
          | '.' :: fp =>
            if ¬ fp = [] && fp.all isDigitC then some (decValue ip fp) else none
          | _ => none
  | _ => none

/-- Third alternative of `CONTINUATION_RE`: `\*EXCHANGE\s*RATE:\s*[0-9.]+`
(value class looser than `EXCHANGE_RATE_RE`). -/
def isExchangeContLine (line : List Char) : Bool :=
  match line with
  | '*' :: r0 =>
    match matchLitCI litExchange r0 with
    | none => false
    | some r1 =>
      match matchLitCI litRateColon (wsRun0 r1) with
      | none => false
      | some r2 =>
        let v := wsRun0 r2
        ¬ v = [] && v.all (fun c => isDigitC c || c = '.')
  | _ => false

/-- `CONTINUATION_RE`: any of the three recognized continuation shapes. -/
def contMatches (line : List Char) : Bool :=
  isApplePayLine line || isUnionpayQrLine line || isExchangeContLine line

/-! ## Reconstruction FSM (`parse_sub_account` line loop) -/

def litPaidByAutopay : List Char :=
  ['P','A','I','D',' ','B','Y',' ','A','U','T','O','P','A','Y']
def litPayment : List Char := ['p','a','y','m','e','n','t']
def litRefundOrCredit : List Char :=
  ['r','e','f','u','n','d','_','o','r','_','c','r','e','d','i','t']
def litPurchaseOrCharge : List Char :=
  ['p','u','r','c','h','a','s','e','_','o','r','_','c','h','a','r','g','e']
def litApplePayTag : List Char := ['A','P','P','L','E','_','P','A','Y']
def litUnionpayQrTag : List Char := ['U','N','I','O','N','P','A','Y','_','Q','R']

/-- `to_card_number`: strip non-digits, require exactly 16 digits. -/
def to_card_number (raw : List Char) : Option (List Char) :=
  let digits := raw.filter isDigitC
  if digits.length = 16 then some digits else none

/-- `set_once_or_same`: first write wins, a differing rewrite is a hard error. -/
def set_once_or_same (current : Option Nat) (new : Nat) : Option Nat :=
  match current with
  | none => some new
  | some c => if c = new then some c else none

/-- Mutate the last element of the list (the Python `last_tx` object lives inside
`account.transactions`). -/
def modifyLast (f : Transaction → Transaction) : List Transaction → List Transaction
  | [] => []
  | [t] => [f t]
  | t :: u :: rest => t :: modifyLast f (u :: rest)

/-- Continuation of the line walk after the five summary branches and the
cardholder branch have fallen through: transaction-shaped lines, continuation
lines, the malformed-summary-prefix hard errors, and the silent fall-through. -/
def lineStepTail (stmtY : Int) (stmtM : Nat) (base : List Char) (st : ParseCtx)
    (line : List Char) : Option ParseCtx :=
  if txPrefixShaped line then
    match matchTransaction line with
    | none => none
    | some (postTok, transTok, descRaw, amtRaw) =>
      match st.currentCard with
      | none => none
      | some cardNum =>
        match parse_money amtRaw with
        | none => none
        | some (amount, signed, isCr) =>
          match parse_ddmon postTok stmtY stmtM with
          | none => none
          | some postD =>
            match parse_ddmon transTok stmtY stmtM with
            | none => none
            | some transD =>
              match split_description_details descRaw with
              | none => none
              | some (desc, region, cur, curAmt) =>
                -- `tx_currency or base_currency`: an ALPHA3 capture is never empty
                let txCurrency := match cur with | some c => c | none => base
                -- `tx_currency_amount or amount`: Decimal("0.00") is falsy
                let txCurrencyAmount :=
                  match curAmt with
                  | some v => if v = 0 then amount else v
                  | none => amount
                match st.acct.cards.lookup cardNum with
                | none => none
                | some nm =>
                  if nm = [] then none
                  else
                    let kind :=
                      if isCr && containsSeq litPaidByAutopay (toUpperL desc) then litPayment
                      else if isCr then litRefundOrCredit
                      else litPurchaseOrCharge
                    let tx : Transaction :=
                      { post_date := postD
                        transaction_date := transD
                        description := desc
                        amount := amount
                        signed_amount := signed
                        is_credit := isCr
                        kind := kind
                        card_number := cardNum
                        cardholder_name := nm
                        payment_method := none
                        region_code_alpha2 := region
                        currency := some txCurrency
                        currency_amount := some txCurrencyAmount
                        exchange_rate := none
                        notes := [] }
                    some { st with
                            acct := { st.acct with
                                        transactions := st.acct.transactions ++ [tx] }
                            lastTxActive := true }
  else if st.lastTxActive && contMatches line then
    match matchExchangeRate line with
    | some rate =>
      match st.acct.transactions.getLast? with
      | none => some st  -- unreachable: `last_tx` always lives in the list
      | some lt =>
        match lt.exchange_rate with
        | none =>
          some { st with
                  acct := { st.acct with
                              transactions :=
                                modifyLast (fun t => { t with exchange_rate := some rate })
                                  st.acct.transactions } }
        | some r0 => if decEqVal r0 rate then some st else none
    | none =>
      if isApplePayLine line then
        match st.acct.transactions.getLast? with
        | none => some st
        | some lt =>
          match lt.payment_method with
          | none =>
            some { st with
                    acct := { st.acct with
                                transactions :=
                                  modifyLast
                                    (fun t => { t with payment_method := some litApplePayTag })
                                    st.acct.transactions } }
          | some m => if m = litApplePayTag then some st else none
      else if isUnionpayQrLine line then
        match st.acct.transactions.getLast? with
        | none => some st
        | some lt =>
          match lt.payment_method with
          | none =>
            some { st with
                    acct := { st.acct with
                                transactions :=
                                  modifyLast
                                    (fun t => { t with payment_method := some litUnionpayQrTag })
                                    st.acct.transactions } }
          | some m => if m = litUnionpayQrTag then some st else none
      else
        some { st with
                acct := { st.acct with
                            transactions :=
                              modifyLast (fun t => { t with notes := t.notes ++ [line] })
                                st.acct.transactions } }
  else if startsWithSeq litPrevBal line then none
  else if startsWithSeq litStmtBal line then none
  else if startsWithSeq litCreditPayment line then none
  else if startsWithSeq litPurchases line then none
  else if startsWithSeq litTotalBal line then none
  else some st

/-- One iteration of the `parse_sub_account` line loop on a normalized non-empty
line; `none` models a raised `ParseError`. -/
def lineStep (stmtY : Int) (stmtM : Nat) (base : List Char) (st : ParseCtx)
    (line : List Char) : Option ParseCtx :=
  match matchPrevBalance line with
  | some tok =>
    match parse_money tok with
    | none => none
    | some (amount, _signed, isCr) =>
      if isCr then none
      else
        match set_once_or_same st.acct.previous_balance amount with
        | none => none
        | some v =>
          some { st with
                  acct := { st.acct with previous_balance := some v }
                  lastTxActive := false }
  | none =>
  match matchStmtBalance line with
  | some tok =>
    match parse_money tok with
    | none => none
    | some (amount, _signed, isCr) =>
      if isCr then none
      else
        match set_once_or_same st.acct.statement_balance_summary amount with
        | none => none
        | some v =>
          some { st with
                  acct := { st.acct with statement_balance_summary := some v }
                  lastTxActive := false }
  | none =>
  match matchSummaryCredit line with
  | some tok =>
    match parse_money tok with
    | none => none
    | some (amount, _signed, isCr) =>
      if ¬ amount = 0 && ¬ isCr then none
      else
        match set_once_or_same st.acct.summary_credit_payment amount with
        | none => none
        | some v =>
          some { st with
                  acct := { st.acct with summary_credit_payment := some v }
                  lastTxActive := false }
  | none =>
  match matchSummaryPurchase line with
  | some tok =>
    match parse_money tok with
    | none => none
    | some (amount, _signed, isCr) =>
      if isCr then none
      else
        match set_once_or_same st.acct.summary_purchases_and_instalments amount with
        | none => none
        | some v =>
          some { st with
                  acct := { st.acct with summary_purchases_and_instalments := some v }
                  lastTxActive := false }
  | none =>
  match matchSummaryTotal line with
  | some tok =>
    match parse_money tok with
    | none => none
    | some (amount, _signed, isCr) =>
      if isCr then none
      else
        match set_once_or_same st.acct.summary_total_account_balance amount with
        | none => none
        | some v =>
          some { st with
                  acct := { st.acct with summary_total_account_balance := some v }
                  lastTxActive := false }
  | none =>
  match matchCardHolder line with
  | some (cardRaw, candidateName) =>
    if is_probable_cardholder candidateName then
      match to_card_number cardRaw with
      | none => none
      | some cardNumber =>
        let cardName := squeeze_ws candidateName
        match st.acct.cards.lookup cardNumber with
        | none =>
          some { st with
                  acct := { st.acct with cards := st.acct.cards ++ [(cardNumber, cardName)] }
                  currentCard := some cardNumber
                  lastTxActive := false }
        | some existing =>
          if existing = cardName then
            some { st with currentCard := some cardNumber, lastTxActive := false }
          else none
    else lineStepTail stmtY stmtM base st line
  | none => lineStepTail stmtY stmtM base st line

/-- One iteration of the raw loop: normalize the raw line and skip it when empty. -/
def processLine (stmtY : Int) (stmtM : Nat) (base : List Char) (st : ParseCtx)
    (raw : List Char) : Option ParseCtx :=
  let line := squeeze_ws raw
  if line = [] then some st else lineStep stmtY stmtM base st line

/-! ## Validation (`validate_sub_account`) -/

def sumCredits (txs : List Transaction) : Nat :=
  ((txs.filter fun tx => tx.is_credit).map fun tx => tx.amount).sum

def sumDebits (txs : List Transaction) : Nat :=
  ((txs.filter fun tx => ¬ tx.is_credit).map fun tx => tx.amount).sum

/-- `net = (previous_balance + debits - credits).quantize(...)` (quantization is
the identity on cent values). -/
def netOf (prev : Nat) (txs : List Transaction) : Int :=
  (prev : Int) + (sumDebits txs : Int) - (sumCredits txs : Int)

/-- The per-transaction loop of `validate_sub_account`: currency details present;
cross-currency transactions carry a rate whose quantized product is within 0.05
of the posted amount; base-currency transactions carry no rate. -/
def checkTxs (base : List Char) : List Transaction → Option Unit
  | [] => some ()
  | tx :: rest =>
    match tx.currency, tx.currency_amount with
    | some cur, some ca =>
      if ¬ cur = base then
        match tx.exchange_rate with
        | none => none
        | some r =>
          if 5 < ((convertedCents ca r : Int) - (tx.amount : Int)).natAbs then none
          else checkTxs base rest
      else
        match tx.exchange_rate with
        | some _ => none
        | none => checkTxs base rest
    | _, _ => none

/-- `validate_sub_account`; `none` models a raised `ParseError`. -/
def validate_sub_account (a : SubAccount) : Option Unit :=
  match a.previous_balance with
  | none => none
  | some prev =>
    match a.amount_currency with
    | none => none
    | some ac =>
      let base := canonical_base_currency ac
      let credits := sumCredits a.transactions
      let debits := sumDebits a.transactions
      let net := netOf prev a.transactions
      match checkTxs base a.transactions with
      | none => none
      | some () =>
        if a.summary_credit_payment.any fun s => credits != s then none
        else if a.summary_credit_payment.isNone && credits != 0 then none
        else if a.summary_purchases_and_instalments.any fun s => debits != s then none
        else if a.summary_purchases_and_instalments.isNone && debits != 0 then none
        else if a.statement_balance_summary.isNone &&
            a.summary_total_account_balance.isNone &&
            a.statement_balance_header.isNone then none
        else if a.statement_balance_summary.any fun s : Nat => net != (s : Int) then none
        else if a.summary_total_account_balance.any fun t : Nat => net != (t : Int) then none
        else if a.statement_balance_summary.any fun s =>
            a.summary_total_account_balance.any fun t => s != t then none
        else if a.statement_balance_header.any fun hd : Nat => net != (hd : Int) then none
        else some ()

/-! ## Output assembly (`sub_account_to_json`, statement-balance field) -/

/-- Python `x or y` on an optional `Decimal` (a zero value is falsy). -/
def pyOrD (o : Option Nat) (k : Int) : Int :=
  match o with
  | some v => if v = 0 then k else (v : Int)
  | none => k

/-- `computed_statement_balance` of `sub_account_to_json`. -/
def computed_statement_balance (a : SubAccount) : Int :=
  pyOrD a.previous_balance 0 + (sumDebits a.transactions : Int) -
    (sumCredits a.transactions : Int)

/-- `effective_statement_balance` of `sub_account_to_json`: the Python
`or`-chain over the three anchors with the computed net as fallback. -/
def effective_statement_balance (a : SubAccount) : Int :=
  pyOrD a.statement_balance_summary
    (pyOrD a.summary_total_account_balance
      (pyOrD a.statement_balance_header (computed_statement_balance a)))

/-- Modelled from the spec: the first present of statement-balance summary,
total-account-balance summary, header balance, computed net (spec §4.6);
compared against `effective_statement_balance` for the refinement claim C7. -/
def effectiveStatementBalanceSpec (a : SubAccount) : Int :=
  match a.statement_balance_summary with
  | some v => (v : Int)
  | none =>
    match a.summary_total_account_balance with
    | some v => (v : Int)
    | none =>
      match a.statement_balance_header with
      | some v => (v : Int)
      | none => computed_statement_balance a

/-! ## Theorems: token parsers -/

/-- Claim C5: for a well-formed DDMON token the parser resolves the year to the
statement year minus one exactly when the token month exceeds the statement
month (statement year otherwise), and fails exactly when the day and month do
not form a real calendar date in the resolved year. -/
theorem parse_ddmon_year_inference (a b c d e : Char) (sy : Int) (sm m : Nat)
    (ha : isDigitC a = true) (hb : isDigitC b = true)
    (hc : isUpperC c = true) (hd : isUpperC d = true) (he : isUpperC e = true)
    (hm : monthNum [c, d, e] = some m) :
    parse_ddmon [a, b, c, d, e] sy sm =
      (if isValidDate (if m > sm then sy - 1 else sy) m (dval a * 10 + dval b) then
        some ⟨if m > sm then sy - 1 else sy, m, dval a * 10 + dval b⟩
      else none) := by
  simp [parse_ddmon, ha, hb, hc, hd, he, hm]

/-- Witness for C5 (spec Scenario B: December token on a January statement
rolls back one year). -/
theorem parse_ddmon_year_inference_witness :
    parse_ddmon ['0','5','D','E','C'] 2024 1 = some ⟨2023, 12, 5⟩ := by
  rw [parse_ddmon_year_inference '0' '5' 'D' 'E' 'C' 2024 1 12 (by decide) (by decide)
    (by decide) (by decide) (by decide) (by decide)]
  decide

lemma ite_none_eq_some {α : Type} {c : Prop} [Decidable c] {e : Option α} {x : α} :
    (if c then none else e) = some x ↔ ¬c ∧ e = some x := by
  split <;> simp_all

lemma checkTxs_sound (base : List Char) (l : List Transaction)
    (h : checkTxs base l = some ()) :
    ∀ tx ∈ l, ∃ cur ca, tx.currency = some cur ∧ tx.currency_amount = some ca ∧
      (cur ≠ base → ∃ r, tx.exchange_rate = some r ∧
        ((convertedCents ca r : Int) - (tx.amount : Int)).natAbs ≤ 5) ∧
      (cur = base → tx.exchange_rate = none) := by
  induction l with
  | nil => intro tx htx; cases htx
  | cons tx rest ih =>
    intro t ht
    unfold checkTxs at h
    rcases hcur : tx.currency with _ | cur <;>
      rcases hca : tx.currency_amount with _ | ca <;>
      rw [hcur, hca] at h <;> dsimp only at h
    · cases h
    · cases h
    · cases h
    by_cases hbase : cur = base
    · rw [if_neg (by simp [hbase])] at h
      rcases hrate : tx.exchange_rate with _ | r <;> rw [hrate] at h <;> dsimp only at h
      · rcases List.mem_cons.mp ht with rfl | hmem
        · exact ⟨cur, ca, hcur, hca, fun hne => absurd hbase hne, fun _ => hrate⟩
        · exact ih h t hmem
      · cases h
    · rw [if_pos (by simp [hbase])] at h
      rcases hrate : tx.exchange_rate with _ | r <;> rw [hrate] at h <;> dsimp only at h
      · cases h
      by_cases htol :
          5 < ((convertedCents ca r : Int) - (tx.amount : Int)).natAbs
      · rw [if_pos htol] at h; cases h
      rw [if_neg htol] at h
      rcases List.mem_cons.mp ht with rfl | hmem
      · exact ⟨cur, ca, hcur, hca, fun _ => ⟨r, hrate, by omega⟩,
          fun heq => absurd heq hbase⟩
      · exact ih h t hmem

lemma validate_sub_account_ok (a : SubAccount) (h : validate_sub_account a = some ()) :
    ∃ prev ac, a.previous_balance = some prev ∧ a.amount_currency = some ac ∧
      checkTxs (canonical_base_currency ac) a.transactions = some () ∧
      (∀ s, a.summary_credit_payment = some s → sumCredits a.transactions = s) ∧
      (a.summary_credit_payment = none → sumCredits a.transactions = 0) ∧
      (∀ s, a.summary_purchases_and_instalments = some s → sumDebits a.transactions = s) ∧
      (a.summary_purchases_and_instalments = none → sumDebits a.transactions = 0) ∧
      (a.statement_balance_summary ≠ none ∨ a.summary_total_account_balance ≠ none ∨
        a.statement_balance_header ≠ none) ∧
      (∀ s, a.statement_balance_summary = some s →
        netOf prev a.transactions = (s : Int)) ∧
      (∀ t, a.summary_total_account_balance = some t →
        netOf prev a.transactions = (t : Int)) ∧
      (∀ hd, a.statement_balance_header = some hd →
        netOf prev a.transactions = (hd : Int)) := by
  unfold validate_sub_account at h
  rcases hp : a.previous_balance with _ | prev <;> rw [hp] at h
  · cases h
  rcases hac : a.amount_currency with _ | ac <;> rw [hac] at h
  · cases h
  dsimp only at h
  rcases hct : checkTxs (canonical_base_currency ac) a.transactions with _ | u <;>
    rw [hct] at h
  · cases h
  cases u
  simp only [ite_none_eq_some] at h
  obtain ⟨hc1, hc2, hc3, hc4, hc5, hc6, hc7, hc8, hc9, -⟩ := h
  refine ⟨prev, ac, rfl, rfl, hct, ?_, ?_, ?_, ?_, ?_, ?_, ?_, ?_⟩
  · intro s hs; rw [hs] at hc1; simpa using hc1
  · intro hn; rw [hn] at hc2; simpa using hc2
  · intro s hs; rw [hs] at hc3; simpa using hc3
  · intro hn; rw [hn] at hc4; simpa using hc4
  · by_contra hcon
    push_neg at hcon
    obtain ⟨c1, c2, c3⟩ := hcon
    exact hc5 (by simp [Option.isNone_iff_eq_none, c1, c2, c3])
  · intro s hs; rw [hs] at hc6; simpa using hc6
  · intro t ht; rw [ht] at hc7; simpa using hc7
  · intro hd hhd; rw [hhd] at hc9; simpa using hc9

/-- Claim C1: for every sub-account accepted by `validate_sub_account`, the net
`previous_balance + debits - credits` (in cents, where 2-decimal quantization is
the identity) equals every present balance anchor, and any two present anchors
are equal to each other. -/
theorem reconciliation_invariant (a : SubAccount)
    (h : validate_sub_account a = some ()) :
    ∃ prev, a.previous_balance = some prev ∧
      (∀ s, a.statement_balance_summary = some s →
        netOf prev a.transactions = (s : Int)) ∧
      (∀ t, a.summary_total_account_balance = some t →
        netOf prev a.transactions = (t : Int)) ∧
      (∀ hd, a.statement_balance_header = some hd →
        netOf prev a.transactions = (hd : Int)) ∧
      (∀ s t, a.statement_balance_summary = some s →
        a.summary_total_account_balance = some t → s = t) ∧
      (∀ s hd, a.statement_balance_summary = some s →
        a.statement_balance_header = some hd → s = hd) ∧
      (∀ t hd, a.summary_total_account_balance = some t →
        a.statement_balance_header = some hd → t = hd) := by
  obtain ⟨prev, ac, hp, -, -, -, -, -, -, -, hs, ht, hh⟩ := validate_sub_account_ok a h
  refine ⟨prev, hp, hs, ht, hh, ?_, ?_, ?_⟩ <;> intro x y hx hy
  · have h1 := hs x hx; have h2 := ht y hy; omega
  · have h1 := hs x hx; have h2 := hh y hy; omega
  · have h1 := ht x hx; have h2 := hh y hy; omega

/-- A concrete sub-account that validates: previous balance 100.00, no
transactions, statement-balance summary 100.00. -/
def exAccountA : SubAccount :=
  { account_number := []
    sub_account_currency := some ['H','K','D']
    amount_currency := some ['H','K','D']
    statement_balance_header := none
    previous_balance := some 10000
    statement_balance_summary := some 10000
    summary_credit_payment := none
    summary_purchases_and_instalments := none
    summary_total_account_balance := none
    cards := []
    transactions := [] }

/-- Witness for C1. -/
theorem reconciliation_invariant_witness :
    validate_sub_account exAccountA = some () ∧
      ∃ prev, exAccountA.previous_balance = some prev ∧
        (∀ s, exAccountA.statement_balance_summary = some s →
          netOf prev exAccountA.transactions = (s : Int)) := by
  refine ⟨by decide, ?_⟩
  obtain ⟨prev, hp, hs, -⟩ := reconciliation_invariant exAccountA (by decide)
  exact ⟨prev, hp, hs⟩

/-- Claim C6: under validation, the credit-transaction sum equals the declared
credit/payment summary when present and is zero when it is absent, and likewise
for the debit sum against the purchases-and-instalments summary. -/
theorem summary_totals_invariant (a : SubAccount)
    (h : validate_sub_account a = some ()) :
    (∀ s, a.summary_credit_payment = some s → sumCredits a.transactions = s) ∧
    (a.summary_credit_payment = none → sumCredits a.transactions = 0) ∧
    (∀ s, a.summary_purchases_and_instalments = some s →
      sumDebits a.transactions = s) ∧
    (a.summary_purchases_and_instalments = none → sumDebits a.transactions = 0) := by
  obtain ⟨-, -, -, -, -, hc1, hc2, hc3, hc4, -⟩ := validate_sub_account_ok a h
  exact ⟨hc1, hc2, hc3, hc4⟩

/-- Witness for C6. -/
theorem summary_totals_invariant_witness :
    validate_sub_account exAccountA = some () ∧
      (exAccountA.summary_credit_payment = none →
        sumCredits exAccountA.transactions = 0) := by
  exact ⟨by decide, (summary_totals_invariant exAccountA (by decide)).2.1⟩

/-- Claim C2: under validation every transaction carries currency details; a
transaction whose currency differs from the canonical base currency carries an
exchange rate whose quantized product with the foreign amount is within 0.05
(5 cents) of the posted amount, and a base-currency transaction carries no
exchange rate. -/
theorem foreign_currency_invariant (a : SubAccount)
    (h : validate_sub_account a = some ()) :
    ∀ ac, a.amount_currency = some ac →
      ∀ tx ∈ a.transactions, ∃ cur ca,
        tx.currency = some cur ∧ tx.currency_amount = some ca ∧
        (cur ≠ canonical_base_currency ac → ∃ r, tx.exchange_rate = some r ∧
          ((convertedCents ca r : Int) - (tx.amount : Int)).natAbs ≤ 5) ∧
        (cur = canonical_base_currency ac → tx.exchange_rate = none) := by
  intro ac hac tx htx
  obtain ⟨prev, ac2, -, hac2, hct, -⟩ := validate_sub_account_ok a h
  rw [hac] at hac2
  cases hac2
  exact checkTxs_sound (canonical_base_currency ac) a.transactions hct tx htx

/-- A concrete sub-account with one foreign-currency transaction (spec
Scenario C: 5000.00 at rate 0.052 against a posted 260.00). -/
def exTxForeign : Transaction :=
  { post_date := ⟨2024, 1, 1⟩
    transaction_date := ⟨2024, 1, 2⟩
    description := ['A','M','A','Z','O','N']
    amount := 26000
    signed_amount := 26000
    is_credit := false
    kind := litPurchaseOrCharge
    card_number := []
    cardholder_name := ['A']
    payment_method := none
    region_code_alpha2 := some ['J','P']
    currency := some ['J','P','Y']
    currency_amount := some 500000
    exchange_rate := some (decValue ['0'] ['0','5','2'])
    notes := [] }

def exAccountB : SubAccount :=
  { account_number := []
    sub_account_currency := some ['H','K','D']
    amount_currency := some ['H','K','D']
    statement_balance_header := none
    previous_balance := some 0
    statement_balance_summary := some 26000
    summary_credit_payment := none
    summary_purchases_and_instalments := some 26000
    summary_total_account_balance := none
    cards := []
    transactions := [exTxForeign] }

/-- Witness for C2. -/
theorem foreign_currency_invariant_witness :
    validate_sub_account exAccountB = some () ∧
      ∃ cur ca, exTxForeign.currency = some cur ∧
        exTxForeign.currency_amount = some ca ∧
        (cur ≠ canonical_base_currency ['H','K','D'] → ∃ r,
          exTxForeign.exchange_rate = some r ∧
          ((convertedCents ca r : Int) - (exTxForeign.amount : Int)).natAbs ≤ 5) ∧
        (cur = canonical_base_currency ['H','K','D'] →
          exTxForeign.exchange_rate = none) := by
  refine ⟨by decide, ?_⟩
  exact foreign_currency_invariant exAccountB (by decide) ['H','K','D'] rfl
    exTxForeign (by simp [exAccountB])

/-- Claim C7: for a validated sub-account, the `statement_balance` value that
`sub_account_to_json` serializes (the Python or-chain, where a zero anchor is
falsy) equals the first present value of statement-balance summary,
total-account-balance summary, header balance, computed net: under validation
every present anchor and the computed net all equal the reconciled net, so the
truthiness quirk never changes the result. -/
theorem statement_balance_first_present (a : SubAccount)
    (h : validate_sub_account a = some ()) :
    effective_statement_balance a = effectiveStatementBalanceSpec a := by
  obtain ⟨prev, ac, hp, -, -, -, -, -, -, -, hs, ht, hh⟩ := validate_sub_account_ok a h
  have hcomp : computed_statement_balance a = netOf prev a.transactions := by
    unfold computed_statement_balance netOf pyOrD
    rw [hp]
    dsimp only
    split <;> omega
  unfold effective_statement_balance effectiveStatementBalanceSpec pyOrD
  rcases hsb : a.statement_balance_summary with _ | s <;>
    rcases htb : a.summary_total_account_balance with _ | t <;>
    rcases hhd : a.statement_balance_header with _ | hd <;>
    dsimp only <;>
    (try have h1 := hs _ hsb) <;>
    (try have h2 := ht _ htb) <;>
    (try have h3 := hh _ hhd) <;>
    (try rw [hcomp]) <;>
    (repeat' split) <;>
    omega

/-- A concrete validated sub-account whose only anchor is the header balance. -/
def exAccountC : SubAccount :=
  { account_number := []
    sub_account_currency := some ['H','K','D']
    amount_currency := some ['H','K','D']
    statement_balance_header := some 500
    previous_balance := some 500
    statement_balance_summary := none
    summary_credit_payment := none
    summary_purchases_and_instalments := none
    summary_total_account_balance := none
    cards := []
    transactions := [] }

/-- Witness for C7. -/
theorem statement_balance_first_present_witness :
    validate_sub_account exAccountC = some () ∧
      effective_statement_balance exAccountC = effectiveStatementBalanceSpec exAccountC ∧
      effective_statement_balance exAccountC = 500 := by
  exact ⟨by decide, statement_balance_first_present exAccountC (by decide), by decide⟩

/-! ## Theorems: money round-trip -/

lemma isDigitC_ne (c x : Char) (hc : isDigitC c = true)
    (hx : x.toNat < 48 ∨ 57 < x.toNat) : ¬ c = x := by
  intro heq
  subst heq
  simp [isDigitC] at hc
  omega

lemma isDigitC_dChar (n : Nat) (h : n < 10) : isDigitC (dChar n) = true := by
  interval_cases n <;> decide

lemma dval_dChar (n : Nat) (h : n < 10) : dval (dChar n) = n := by
  interval_cases n <;> decide

lemma natDigitsAux_spec (fuel : Nat) : ∀ n, n < 10 ^ fuel → 0 < fuel →
    (∀ c ∈ natDigitsAux fuel n, isDigitC c = true) ∧
      ¬ natDigitsAux fuel n = [] ∧ digitsVal (natDigitsAux fuel n) = n := by
  induction fuel with
  | zero => intro n _ hf; omega
  | succ fuel ih =>
    intro n hn _
    unfold natDigitsAux
    by_cases hlt : n < 10
    · rw [if_pos hlt]
      refine ⟨?_, by simp, ?_⟩
      · intro c hc
        simp at hc
        subst hc
        exact isDigitC_dChar n hlt
      · simp [digitsVal, dval_dChar n hlt]
    · rw [if_neg hlt]
      have hdiv : n / 10 < 10 ^ fuel := by
        rw [Nat.div_lt_iff_lt_mul (by omega)]
        calc n < 10 ^ (fuel + 1) := hn
        _ = 10 ^ fuel * 10 := by ring
      have hfuel : 0 < fuel := by
        by_contra hz
        have : fuel = 0 := by omega
        subst this
        simp at hdiv
        omega
      obtain ⟨hd1, hd2, hd3⟩ := ih (n / 10) hdiv hfuel
      refine ⟨?_, by simp, ?_⟩
      · intro c hc
        rw [List.mem_append] at hc
        rcases hc with hc | hc
        · exact hd1 c hc
        · simp at hc
          subst hc
          exact isDigitC_dChar _ (Nat.mod_lt _ (by omega))
      · unfold digitsVal
        rw [List.foldl_append]
        have : List.foldl (fun a c => a * 10 + dval c) (digitsVal (natDigitsAux fuel (n / 10)))
            [dChar (n % 10)] =
            digitsVal (natDigitsAux fuel (n / 10)) * 10 + dval (dChar (n % 10)) := rfl
        rw [show List.foldl (fun a c => a * 10 + dval c) 0 (natDigitsAux fuel (n / 10)) =
          digitsVal (natDigitsAux fuel (n / 10)) from rfl, this, hd3,
          dval_dChar _ (Nat.mod_lt _ (by omega))]
        omega

lemma natDigits_spec (n : Nat) :
    (∀ c ∈ natDigits n, isDigitC c = true) ∧ ¬ natDigits n = [] ∧
      digitsVal (natDigits n) = n := by
  have hpow : n < 10 ^ (n + 1) := by
    calc n < 10 ^ n := Nat.lt_pow_self (by omega) n
    _ ≤ 10 ^ (n + 1) := Nat.pow_le_pow_right (by omega) (by omega)
  exact natDigitsAux_spec (n + 1) n hpow (by omega)

lemma takeWhile_all_append (p : Char → Bool) (xs ys : List Char)
    (hxs : ∀ c ∈ xs, p c = true)
    (hys : ∀ y t, ys = y :: t → p y = false) :
    (xs ++ ys).takeWhile p = xs ∧ (xs ++ ys).dropWhile p = ys := by
  induction xs with
  | nil =>
    simp only [List.nil_append]
    cases ys with
    | nil => simp
    | cons y t =>
      have hy := hys y t rfl
      simp [List.takeWhile_cons, List.dropWhile_cons, hy]
  | cons x xs ih =>
    have hx := hxs x (by simp)
    obtain ⟨ih1, ih2⟩ := ih (fun c hc => hxs c (by simp [hc]))
    simp [List.takeWhile_cons, List.dropWhile_cons, hx, ih1, ih2]

lemma money_to_json_eq (v : Nat) :
    money_to_json v =
      natDigits (v / 100) ++ '.' :: dChar (v % 100 / 10) :: dChar (v % 100 % 10) :: [] := rfl

lemma money_to_json_chars (v : Nat) :
    ∀ c ∈ money_to_json v, isDigitC c = true ∨ c = '.' := by
  intro c hc
  rw [money_to_json_eq, List.mem_append] at hc
  rcases hc with hc | hc
  · exact Or.inl ((natDigits_spec (v / 100)).1 c hc)
  · simp at hc
    rcases hc with rfl | rfl | rfl
    · exact Or.inr rfl
    · exact Or.inl (isDigitC_dChar _ (by omega))
    · exact Or.inl (isDigitC_dChar _ (Nat.mod_lt _ (by omega)))

lemma money_to_json_no_space (v : Nat) :
    (money_to_json v).filter (fun c => ¬ c = ' ') = money_to_json v := by
  rw [List.filter_eq_self]
  intro c hc
  rcases money_to_json_chars v c hc with h | h
  · simpa using isDigitC_ne c ' ' h (by left; decide)
  · subst h; decide

lemma money_to_json_no_comma (v : Nat) :
    (money_to_json v).filter (fun c => ¬ c = ',') = money_to_json v := by
  rw [List.filter_eq_self]
  intro c hc
  rcases money_to_json_chars v c hc with h | h
  · simpa using isDigitC_ne c ',' h (by left; decide)
  · subst h; decide

lemma stripCR_money_to_json (v : Nat) :
    stripCR (money_to_json v) = (money_to_json v, false) := by
  unfold stripCR
  rw [money_to_json_eq]
  rw [show (natDigits (v / 100) ++
      '.' :: dChar (v % 100 / 10) :: dChar (v % 100 % 10) :: []).reverse =
    dChar (v % 100 % 10) :: dChar (v % 100 / 10) :: '.' :: (natDigits (v / 100)).reverse by
      simp]
  dsimp only
  rw [if_neg]
  intro hcon
  exact isDigitC_ne _ 'R' (isDigitC_dChar _ (Nat.mod_lt _ (by omega))) (by right; decide)
    hcon.1

lemma moneyCore_money_to_json (v : Nat) : moneyCore (money_to_json v) = some v := by
  unfold moneyCore
  rw [money_to_json_eq]
  obtain ⟨htake, hdrop⟩ := takeWhile_all_append isDigitC (natDigits (v / 100))
    ('.' :: dChar (v % 100 / 10) :: dChar (v % 100 % 10) :: [])
    (natDigits_spec (v / 100)).1
    (by intro y t hyt; cases hyt; decide)
  rw [htake, hdrop]
  dsimp only
  rw [if_neg (natDigits_spec (v / 100)).2.1]
  rw [if_pos (by
    rw [isDigitC_dChar _ (by omega : v % 100 / 10 < 10),
      isDigitC_dChar _ (Nat.mod_lt _ (by omega : (0:Nat) < 10))]
    decide)]
  rw [(natDigits_spec (v / 100)).2.2, dval_dChar _ (by omega : v % 100 / 10 < 10),
    dval_dChar _ (Nat.mod_lt _ (by omega : (0:Nat) < 10))]
  congr 1
  omega

lemma parse_money_money_to_json (v : Nat) :
    parse_money (money_to_json v) = some (v, (v : Int), false) := by
  unfold parse_money
  dsimp only
  rw [money_to_json_no_space, stripCR_money_to_json]
  dsimp only
  rw [money_to_json_no_comma, moneyCore_money_to_json]
  simp

/-- Claim C8: any string the money parser accepts round-trips: formatting the
parsed magnitude as a fixed-point 2-decimal string and re-parsing yields the
same magnitude with positive sign and no credit flag (the credit suffix having
been stripped), and the original signed value is the magnitude negated exactly
when the credit flag was set. -/
theorem money_round_trip (raw : List Char) (a : Nat) (sg : Int) (c : Bool)
    (h : parse_money raw = some (a, sg, c)) :
    parse_money (money_to_json a) = some (a, (a : Int), false) ∧
      sg = (if c then -(a : Int) else (a : Int)) := by
  refine ⟨parse_money_money_to_json a, ?_⟩
  unfold parse_money at h
  dsimp only at h
  split at h
  · cases h
  · simp only [Option.some.injEq, Prod.mk.injEq] at h
    obtain ⟨h1, h2, h3⟩ := h
    subst h1
    subst h3
    exact h2.symm

/-- Witness for C8: `"1,234.56CR"` parses to (1234.56, -1234.56, credit) and its
formatted magnitude re-parses identically with the suffix stripped. -/
theorem money_round_trip_witness :
    parse_money ['1',',','2','3','4','.','5','6','C','R'] =
        some (123456, -123456, true) ∧
      parse_money (money_to_json 123456) = some (123456, (123456 : Int), false) ∧
      ((-123456 : Int) = if true then -(123456 : Int) else (123456 : Int)) := by
  have h := money_round_trip ['1',',','2','3','4','.','5','6','C','R'] 123456 (-123456)
    true (by decide)
  exact ⟨by decide, h.1, h.2⟩

/-! ## Theorems: transaction-shaped line guards (reconstruction FSM) -/

lemma isUpperC_not_digit (c : Char) (h : isUpperC c = true) : isDigitC c = false := by
  simp [isUpperC] at h
  simp [isDigitC]
  omega

lemma pyWs_not_word (c : Char) (h : pyWs c = true) : isWordC c = false := by
  simp only [pyWs, Bool.or_eq_true, decide_eq_true_eq] at h
  have h32 : c.toNat ≤ 32 := by omega
  have hne : ¬ c = '_' := by
    intro heq
    subst heq
    revert h32
    decide
  simp [isWordC, isDigitC, isUpperC, isLowerC, hne]
  omega

lemma txPrefixShaped_shape (line : List Char) (h : txPrefixShaped line = true) :
    ∃ a b c d e rest, line = a :: b :: c :: d :: e :: rest ∧
      isDigitC a = true ∧ isDigitC b = true ∧ isUpperC c = true ∧
      isUpperC d = true ∧ isUpperC e = true := by
  rcases line with _ | ⟨a, _ | ⟨b, _ | ⟨c, _ | ⟨d, _ | ⟨e, rest⟩⟩⟩⟩⟩ <;>
    simp [txPrefixShaped] at h
  exact ⟨a, b, c, d, e, rest, rfl, by tauto, by tauto, by tauto, by tauto, by tauto⟩

/-- A transaction-shaped prefix rules out every earlier branch of the line
classifier: the five summary literals start with a letter and the cardholder
pattern needs a digit where the prefix has an upper-case letter. -/
lemma prefix_no_other_match (line : List Char) (h : txPrefixShaped line = true) :
    matchPrevBalance line = none ∧ matchStmtBalance line = none ∧
      matchSummaryCredit line = none ∧ matchSummaryPurchase line = none ∧
      matchSummaryTotal line = none ∧ matchCardHolder line = none := by
  obtain ⟨a, b, c, d, e, rest, rfl, ha, hb, hc, hd, he⟩ := txPrefixShaped_shape line h
  have hP : ¬ a = 'P' := isDigitC_ne a 'P' ha (by right; decide)
  have hS : ¬ a = 'S' := isDigitC_ne a 'S' ha (by right; decide)
  have hC : ¬ a = 'C' := isDigitC_ne a 'C' ha (by right; decide)
  have hT : ¬ a = 'T' := isDigitC_ne a 'T' ha (by right; decide)
  refine ⟨?_, ?_, ?_, ?_, ?_, ?_⟩
  · simp [matchPrevBalance, litPrevBal, matchLit, hP]
  · simp [matchStmtBalance, litStmtBal, matchLit, hS]
  · simp [matchSummaryCredit, litCreditPayment, matchLit, hC]
  · simp [matchSummaryPurchase, litPurchases, matchLit, hP]
  · simp [matchSummaryTotal, litTotalBal, matchLit, hT]
  · simp [matchCardHolder, take4digits, isUpperC_not_digit c hc]

lemma matchTransaction_prefix (line : List Char)
    (r : List Char × List Char × List Char × List Char)
    (h : matchTransaction line = some r) : txPrefixShaped line = true := by
  unfold matchTransaction at h
  rcases htd : takeDdmon line with _ | p <;> rw [htd] at h
  · cases h
  obtain ⟨t1, r1⟩ := p
  dsimp only at h
  rcases hws : wsRun1 r1 with _ | r1b <;> rw [hws] at h
  · cases h
  clear h
  unfold takeDdmon at htd
  rcases line with _ | ⟨a, _ | ⟨b, _ | ⟨c, _ | ⟨d, _ | ⟨e, rest⟩⟩⟩⟩⟩ <;> dsimp only at htd <;>
    try cases htd
  split at htd
  · rename_i hcond
    injection htd with htd1
    injection htd1 with htd1 htd2
    subst htd2
    unfold wsRun1 at hws
    rcases rest with _ | ⟨w, t⟩
    · cases hws
    · dsimp only at hws
      split at hws
      · rename_i hw
        simp at hcond
        simp [txPrefixShaped, pyWs_not_word w hw]
        tauto
      · cases hws
  · cases htd

/-- Claim C9: a line matching the strict transaction pattern is always
transaction-prefix-shaped, and a transaction-prefix-shaped line is a hard error
whenever the strict pattern fails to match or no cardholder context has been
established. -/
theorem transaction_line_guards (stmtY : Int) (stmtM : Nat) (base : List Char)
    (st : ParseCtx) (line : List Char) :
    (∀ r, matchTransaction line = some r → txPrefixShaped line = true) ∧
    (txPrefixShaped line = true →
      matchTransaction line = none ∨ st.currentCard = none →
      lineStep stmtY stmtM base st line = none) := by
  constructor
  · intro r h
    exact matchTransaction_prefix line r h
  · intro hpre hor
    obtain ⟨hm1, hm2, hm3, hm4, hm5, hm6⟩ := prefix_no_other_match line hpre
    unfold lineStep
    rw [hm1, hm2, hm3, hm4, hm5, hm6]
    dsimp only
    unfold lineStepTail
    rw [if_pos hpre]
    rcases hor with hnone | hcard
    · rw [hnone]
    · rcases hmt : matchTransaction line with _ | r
      · rfl
      · obtain ⟨t1, t2, desc, amt⟩ := r
        dsimp only
        rw [hcard]

/-- Witness for C9: a well-formed transaction line with no cardholder context
established is a hard error. -/
def ctxEmpty : ParseCtx :=
  { acct :=
      { account_number := []
        sub_account_currency := some ['H','K','D']
        amount_currency := some ['H','K','D']
        statement_balance_header := none
        previous_balance := none
        statement_balance_summary := none
        summary_credit_payment := none
        summary_purchases_and_instalments := none
        summary_total_account_balance := none
        cards := []
        transactions := [] }
    currentCard := none
    lastTxActive := false }

theorem transaction_line_guards_witness :
    txPrefixShaped
        ['0','1','J','A','N',' ','0','2','J','A','N',' ','S','H','O','P',' ','1','.','0','0'] =
        true ∧
      lineStep 2024 6 ['H','K','D'] ctxEmpty
        ['0','1','J','A','N',' ','0','2','J','A','N',' ','S','H','O','P',' ','1','.','0','0'] =
        none := by
  refine ⟨by decide, ?_⟩
  exact (transaction_line_guards 2024 6 ['H','K','D'] ctxEmpty
    ['0','1','J','A','N',' ','0','2','J','A','N',' ','S','H','O','P',' ','1','.','0','0']).2
    (by decide) (Or.inr rfl)

/-! ## Theorems: reconstruction emits complete currency details -/

/-- The condition of the `validate_sub_account` branch that raises on
incomplete currency details (source: `tx.currency is None or
tx.currency_amount is None`). -/
def incompleteCurrencyGuard (txs : List Transaction) : Bool :=
  txs.any fun tx => tx.currency.isNone || tx.currency_amount.isNone

lemma modifyLast_preserve (P : Transaction → Prop) (f : Transaction → Transaction)
    (hf : ∀ t, P t → P (f t)) :
    ∀ l : List Transaction, (∀ t ∈ l, P t) → ∀ t ∈ modifyLast f l, P t := by
  intro l
  induction l with
  | nil => intro _ t ht; cases ht
  | cons x xs ih =>
    intro hl t ht
    cases xs with
    | nil =>
      simp [modifyLast] at ht
      subst ht
      exact hf x (hl x (by simp))
    | cons y ys =>
      rw [show modifyLast f (x :: y :: ys) = x :: modifyLast f (y :: ys) from rfl] at ht
      rcases List.mem_cons.mp ht with rfl | hmem
      · exact hl t (by simp)
      · exact ih (fun u hu => hl u (by simp [hu])) t hmem

lemma lineStep_currency_complete (stmtY : Int) (stmtM : Nat) (base : List Char)
    (st st' : ParseCtx) (line : List Char)
    (hinv : ∀ tx ∈ st.acct.transactions,
      tx.currency.isSome = true ∧ tx.currency_amount.isSome = true)
    (h : lineStep stmtY stmtM base st line = some st') :
    ∀ tx ∈ st'.acct.transactions,
      tx.currency.isSome = true ∧ tx.currency_amount.isSome = true := by
  unfold lineStep lineStepTail at h
  dsimp only at h
  repeat' split at h
  all_goals try cases h
  all_goals try dsimp only
  all_goals
    first
      | exact hinv
      | (intro tx htx
         rcases List.mem_append.mp htx with hmem | hmem
         · exact hinv tx hmem
         · simp at hmem
           subst hmem
           exact ⟨rfl, rfl⟩)
      | (refine modifyLast_preserve _ _ ?_ _ hinv
         intro t ht
         exact ht)

lemma incompleteCurrencyGuard_false (l : List Transaction)
    (h : ∀ tx ∈ l, tx.currency.isSome = true ∧ tx.currency_amount.isSome = true) :
    incompleteCurrencyGuard l = false := by
  unfold incompleteCurrencyGuard
  rw [List.any_eq_false]
  intro tx htx
  obtain ⟨h1, h2⟩ := h tx htx
  rcases hc : tx.currency with _ | c
  · rw [hc] at h1
    cases h1
  rcases hca : tx.currency_amount with _ | ca
  · rw [hca] at h2
    cases h2
  simp [hc, hca]

/-- Claim C10: the reconstruction step only ever emits transactions whose
currency and currency-amount are populated (base currency and posted amount by
default), so on any state built by reconstruction the validation branch that
raises on incomplete currency details can never fire. -/
theorem reconstruction_currency_complete (stmtY : Int) (stmtM : Nat)
    (base : List Char) (st st' : ParseCtx) (line : List Char)
    (hinv : ∀ tx ∈ st.acct.transactions,
      tx.currency.isSome = true ∧ tx.currency_amount.isSome = true)
    (h : lineStep stmtY stmtM base st line = some st') :
    (∀ tx ∈ st'.acct.transactions,
      tx.currency.isSome = true ∧ tx.currency_amount.isSome = true) ∧
      incompleteCurrencyGuard st'.acct.transactions = false := by
  have hpres := lineStep_currency_complete stmtY stmtM base st st' line hinv h
  exact ⟨hpres, incompleteCurrencyGuard_false _ hpres⟩

/-- Witness for C10: stepping the empty context over a transaction line under an
established cardholder yields a state whose transactions all carry currency
details. -/
def ctxWithCard : ParseCtx :=
  { acct :=
      { account_number := []
        sub_account_currency := some ['H','K','D']
        amount_currency := some ['H','K','D']
        statement_balance_header := none
        previous_balance := none
        statement_balance_summary := none
        summary_credit_payment := none
        summary_purchases_and_instalments := none
        summary_total_account_balance := none
        cards := [(['1'], ['J','O','H','N'])]
        transactions := [] }
    currentCard := some ['1']
    lastTxActive := false }

theorem reconstruction_currency_complete_witness :
    ∃ st', lineStep 2024 6 ['H','K','D'] ctxWithCard
        ['0','1','J','A','N',' ','0','2','J','A','N',' ','S','H','O','P',' ','1','.','0','0'] =
        some st' ∧
      (∀ tx ∈ st'.acct.transactions,
        tx.currency.isSome = true ∧ tx.currency_amount.isSome = true) ∧
      incompleteCurrencyGuard st'.acct.transactions = false := by
  rcases hstep : lineStep 2024 6 ['H','K','D'] ctxWithCard
      ['0','1','J','A','N',' ','0','2','J','A','N',' ','S','H','O','P',' ','1','.','0','0']
    with _ | st'
  · exact absurd hstep (by decide)
  · exact ⟨st', rfl, reconstruction_currency_complete 2024 6 ['H','K','D'] ctxWithCard st' _
      (by decide) hstep⟩

/-! ## Theorems: dispatch of unrecognized lines -/

/-- Counterexample to claim C3: `"HELLO"` is a non-empty normalized line that
matches none of the recognized roles (no summary line, no cardholder header, no
transaction shape, no continuation), yet the line walk returns successfully
with the state unchanged — it is silently skipped, not a hard error. -/
theorem unrecognized_line_silently_skipped :
    squeeze_ws ['H','E','L','L','O'] = ['H','E','L','L','O'] ∧
      ¬ (['H','E','L','L','O'] : List Char) = [] ∧
      matchPrevBalance ['H','E','L','L','O'] = none ∧
      matchStmtBalance ['H','E','L','L','O'] = none ∧
      matchSummaryCredit ['H','E','L','L','O'] = none ∧
      matchSummaryPurchase ['H','E','L','L','O'] = none ∧
      matchSummaryTotal ['H','E','L','L','O'] = none ∧
      matchCardHolder ['H','E','L','L','O'] = none ∧
      txPrefixShaped ['H','E','L','L','O'] = false ∧
      matchTransaction ['H','E','L','L','O'] = none ∧
      contMatches ['H','E','L','L','O'] = false ∧
      lineStep 2024 6 ['H','K','D'] ctxEmpty ['H','E','L','L','O'] = some ctxEmpty := by
  decide

/-- Claim C3 as amended: a non-empty normalized line matching none of the
recognized roles is a hard error exactly when it begins with one of the five
summary-line literals (the malformed-summary guards); every other unrecognized
line is silently skipped, leaving the state unchanged. -/
theorem unrecognized_line_dispatch (stmtY : Int) (stmtM : Nat) (base : List Char)
    (st : ParseCtx) (line : List Char)
    (h1 : matchPrevBalance line = none) (h2 : matchStmtBalance line = none)
    (h3 : matchSummaryCredit line = none) (h4 : matchSummaryPurchase line = none)
    (h5 : matchSummaryTotal line = none)
    (h6 : ∀ p, matchCardHolder line = some p → is_probable_cardholder p.2 = false)
    (h7 : txPrefixShaped line = false)
    (h8 : ¬ (st.lastTxActive = true ∧ contMatches line = true)) :
    lineStep stmtY stmtM base st line =
      (if startsWithSeq litPrevBal line || startsWithSeq litStmtBal line ||
          startsWithSeq litCreditPayment line || startsWithSeq litPurchases line ||
          startsWithSeq litTotalBal line then none else some st) := by
  have hcont : (st.lastTxActive && contMatches line) = false := by
    cases hl : st.lastTxActive <;> cases hcm : contMatches line <;> simp_all
  have htail : lineStepTail stmtY stmtM base st line =
      (if startsWithSeq litPrevBal line || startsWithSeq litStmtBal line ||
          startsWithSeq litCreditPayment line || startsWithSeq litPurchases line ||
          startsWithSeq litTotalBal line then none else some st) := by
    unfold lineStepTail
    rw [h7, hcont]
    dsimp only
    cases hs1 : startsWithSeq litPrevBal line <;>
      cases hs2 : startsWithSeq litStmtBal line <;>
      cases hs3 : startsWithSeq litCreditPayment line <;>
      cases hs4 : startsWithSeq litPurchases line <;>
      cases hs5 : startsWithSeq litTotalBal line <;>
      simp
  unfold lineStep
  rw [h1, h2, h3, h4, h5]
  dsimp only
  rcases hch : matchCardHolder line with _ | p
  · exact htail
  · obtain ⟨cardRaw, name⟩ := p
    dsimp only
    have hprob := h6 (cardRaw, name) hch
    dsimp only at hprob
    rw [if_neg (by rw [hprob]; simp)]
    exact htail

/-- Witness for the amended C3: an unrecognized line not starting with any
summary literal is skipped with the state unchanged. -/
theorem unrecognized_line_dispatch_witness :
    lineStep 2024 6 ['H','K','D'] ctxEmpty ['H','I'] = some ctxEmpty := by
  have h := unrecognized_line_dispatch 2024 6 ['H','K','D'] ctxEmpty ['H','I']
    (by decide) (by decide) (by decide) (by decide) (by decide)
    (by
      intro p hp
      rw [show matchCardHolder ['H','I'] = none from by decide] at hp
      cases hp)
    (by decide) (by decide)
  rw [h]
  decide
